import Mathlib

/-!
# Shallow embedding of `traefik-aws-lambda-plugin` (src/main.go)

This file embeds the request/response mapping core of the plugin:
value coercion (`valueToString`, `valuesToStrings`), the query/header
partition functions (`valuesToMap`, `valuesToMultiMap`, `headersToMap`,
`headersToMultiMap`), body base64 encoding/decoding, the envelope builder
and the `ServeHTTP` control flow, together with theorems settling the
specification claims about them.

Modelling conventions:
* Go maps (`url.Values`, `http.Header`, `map[string]string`,
  `map[string][]string`) are association lists `List (String × _)`;
  a real Go map has no duplicate keys, which appears as a `Nodup`
  hypothesis where a statement needs it.
* Go byte strings that are manipulated as bytes (request/response bodies,
  base64 text) are `List Nat`, each entry one byte value.
* A Go `panic` aborting the request is `Option.none` (inside the
  handler: the `ServeResult.aborted` constructor, carrying the response
  writer state at the moment of the panic).
* Go `float32`/`float64` values are modelled by their exact rational
  value; see `formatFloat4`.
-/

namespace AwsLambda

/-- Widths of Go's signed integer kinds: `reflect.Int`, `Int8`, `Int16`,
`Int32`, `Int64`.  `valueToString` and `valuesToStrings` treat all of them
alike, but we keep the width to state claims about "any width" faithfully. -/
inductive SW where
  | w | w8 | w16 | w32 | w64
  deriving DecidableEq, Repr

/-- Widths of Go's unsigned integer kinds: `reflect.Uint`, `Uint8`,
`Uint16`, `Uint32`, `Uint64`.  The width matters: `valuesToStrings`'s
element-kind switch lists `Uint, Uint8, Uint16, Uint32` but not `Uint64`. -/
inductive UW where
  | w | w8 | w16 | w32 | w64
  deriving DecidableEq, Repr

/-- The `reflect.Kind`s distinguished by the coercion code.  `otherK`
stands for every remaining kind (Bool, Complex, Struct, Map, Ptr, ...),
all of which fall into the `default` switch arms. -/
inductive GoKind where
  | intK (iw : SW)
  | uintK (uw : UW)
  | float32K
  | float64K
  | stringK
  | sliceK (e : GoKind)
  | otherK
  deriving DecidableEq, Repr

/-- A Go value as seen through `reflect` by the coercion code.  A slice
carries its static element kind (what `typeof.Elem().Kind()` returns) and
its elements.  `vOther` is a value of any kind outside
{int*, uint*, float*, string, slice}. -/
inductive GoValue where
  | vInt (iw : SW) (n : Int)
  | vUint (uw : UW) (n : Nat)
  | vFloat32 (q : ℚ)
  | vFloat64 (q : ℚ)
  | vString (s : String)
  | vSlice (ek : GoKind) (elems : List GoValue)
  | vOther

/-- The `reflect.Kind` of a modelled value. -/
def kindOf : GoValue → GoKind
  | .vInt iw _ => .intK iw
  | .vUint uw _ => .uintK uw
  | .vFloat32 _ => .float32K
  | .vFloat64 _ => .float64K
  | .vString _ => .stringK
  | .vSlice ek _ => .sliceK ek
  | .vOther => .otherK

/-- `strconv.FormatInt(n, 10)`: base-10, minus sign for negatives, no
leading zeros or padding. -/
def formatInt (n : Int) : String := toString n

/-- `strconv.FormatUint(n, 10)`. -/
def formatUint (n : Nat) : String := toString n

/-- Left-pad a digit string with zeros to width `n`. -/
def padZeros (n : Nat) (s : String) : String :=
  String.mk (List.replicate (n - s.length) '0') ++ s

/-- Models `strconv.FormatFloat(x, 'f', 4, bitSize)` on the exact rational
value of the float: sign, integer part, a dot, and exactly four fractional
digits, rounded to the nearest 4-decimal value.  Go rounds the binary
floating-point value correctly to four decimals; on the exact rational
values used in this file the two agree (no decimal tie arises from a
binary float at four digits in the claims' inputs). -/
def formatFloat4 (q : ℚ) : String :=
  let sign := if q < 0 then "-" else ""
  let scaled := (⌊|q| * 10000 + 1 / 2⌋).toNat
  sign ++ toString (scaled / 10000) ++ "." ++ padZeros 4 (toString (scaled % 10000))

/-- The element kinds accepted by the switch in `valuesToStrings`
(src/main.go lines 263-266): all signed widths, `Uint` through `Uint32`
(note: `Uint64` is absent from the case list), both float widths, and
`String`. -/
def supportedElemKind : GoKind → Bool
  | .intK _ => true
  | .uintK .w64 => false
  | .uintK _ => true
  | .float32K => true
  | .float64K => true
  | .stringK => true
  | _ => false

mutual
/-- `valueToString` (src/main.go lines 226-254): canonical string form of a
scalar, or of a slice that coerces to exactly one string; `none` models the
`("", false)` failure return.  The slice arm inlines the call
`valuesToStrings(f)`: the argument is already known to be a slice, so that
call reduces to the element-kind check followed by the element loop
(`coerceElems`). -/
def valueToString : GoValue → Option String
  | .vInt _ n => some (formatInt n)
  | .vUint _ n => some (formatUint n)
  | .vFloat32 q => some (formatFloat4 q)
  | .vFloat64 q => some (formatFloat4 q)
  | .vString s => some s
  | .vSlice ek elems =>
    if supportedElemKind ek then
      match coerceElems elems with
      | [s] => some s
      | _ => none
    else none
  | .vOther => none

/-- The element loop of `valuesToStrings` (src/main.go lines 269-276):
coerce each element with `valueToString`, skipping (`continue`) any
element whose coercion fails. -/
def coerceElems : List GoValue → List String
  | [] => []
  | e :: rest =>
    match valueToString e with
    | some s => s :: coerceElems rest
    | none => coerceElems rest
end

/-- `valuesToStrings` (src/main.go lines 256-282): `none` models the
`([]string{}, false)` failure return for non-slices and for slices whose
element kind is outside the supported set. -/
def valuesToStrings (f : GoValue) : Option (List String) :=
  match f with
  | .vSlice ek elems => if supportedElemKind ek then some (coerceElems elems) else none
  | _ => none

/-- A Go `url.Values` / `http.Header` (`map[string][]string`) as an
association list. -/
abbrev Values := List (String × List String)

/-- The `GoValue` a `[]string` presents to `reflect`: a slice of element
kind `String`. -/
def strSlice (l : List String) : GoValue :=
  .vSlice .stringK (l.map .vString)

/-- `valuesToMap` (src/main.go lines 284-296): for each name, coerce its
`[]string` value with `valueToString`; on failure skip the name
(`continue`), on success store the string. -/
def valuesToMap (i : Values) : List (String × String) :=
  i.filterMap fun p =>
    match valueToString (strSlice p.2) with
    | some value => some (p.1, value)
    | none => none

/-- `valuesToMultiMap` (src/main.go lines 298-310): for each name, coerce
its `[]string` value with `valuesToStrings`; skip the name when the
coercion fails or yields exactly one string, otherwise store the list. -/
def valuesToMultiMap (i : Values) : List (String × List String) :=
  i.filterMap fun p =>
    match valuesToStrings (strSlice p.2) with
    | some value => if value.length == 1 then none else some (p.1, value)
    | none => none

/-- `headersToMap` (src/main.go lines 200-211): keep exactly the names
with exactly one value, storing `headers[0]`. -/
def headersToMap (h : Values) : List (String × String) :=
  h.filterMap fun p =>
    match p.2 with
    | [v] => some (p.1, v)
    | _ => none

/-- `headersToMultiMap` (src/main.go lines 213-224): keep exactly the
names with two or more values, storing the full value slice. -/
def headersToMultiMap (h : Values) : List (String × List String) :=
  h.filterMap fun p =>
    if p.2.length < 2 then none else some (p.1, p.2)

/-! ## Base64 (`encoding/base64`, `StdEncoding`)

Bodies are byte lists; the base64 text is also a byte list (ASCII). -/

/-- The byte for index `n` (0-63) of the standard base64 alphabet
`A-Z a-z 0-9 + /`. -/
def b64Byte (n : Nat) : Nat :=
  if n < 26 then 65 + n
  else if n < 52 then 97 + (n - 26)
  else if n < 62 then 48 + (n - 52)
  else if n = 62 then 43
  else 47

/-- The index of an alphabet byte, `none` for a byte outside the
alphabet ('=' included). -/
def b64Index (b : Nat) : Option Nat :=
  if 65 ≤ b ∧ b ≤ 90 then some (b - 65)
  else if 97 ≤ b ∧ b ≤ 122 then some (b - 97 + 26)
  else if 48 ≤ b ∧ b ≤ 57 then some (b - 48 + 52)
  else if b = 43 then some 62
  else if b = 47 then some 63
  else none

/-- `base64.StdEncoding` encoding of a byte sequence: 3-byte groups become
4 alphabet bytes; a trailing group of 2 or 1 bytes is padded with `'='`
(byte 61). -/
def base64Encode : List Nat → List Nat
  | b0 :: b1 :: b2 :: rest =>
    let n := b0 * 65536 + b1 * 256 + b2
    b64Byte (n / 262144) :: b64Byte (n / 4096 % 64) :: b64Byte (n / 64 % 64) ::
      b64Byte (n % 64) :: base64Encode rest
  | [b0, b1] =>
    let n := b0 * 65536 + b1 * 256
    [b64Byte (n / 262144), b64Byte (n / 4096 % 64), b64Byte (n / 64 % 64), 61]
  | [b0] =>
    let n := b0 * 65536
    [b64Byte (n / 262144), b64Byte (n / 4096 % 64), 61, 61]
  | [] => []

/-- `base64.StdEncoding.DecodeString` on the bytes of the input string:
the input must be a sequence of 4-byte quanta; `'='` padding is allowed
only at the very end, closing the final quantum down to 2 or 1 output
bytes.  Any other byte outside the alphabet, a misplaced `'='`, or a
length not a multiple of 4 is a `CorruptInputError`, modelled as `none`.
(The model covers inputs without CR/LF bytes; `StdEncoding` additionally
skips newlines, which no claim exercises.) -/
def base64Decode : List Nat → Option (List Nat)
  | [] => some []
  | a :: b :: c :: d :: rest =>
    match b64Index a, b64Index b with
    | some x, some y =>
      if c = 61 then
        if d = 61 ∧ rest = [] then some [x * 4 + y / 16] else none
      else
        match b64Index c with
        | some z =>
          if d = 61 then
            if rest = [] then
              some [x * 4 + y / 16, y % 16 * 16 + z / 4]
            else none
          else
            match b64Index d with
            | some w =>
              match base64Decode rest with
              | some tail =>
                some ((x * 4 + y / 16) :: (y % 16 * 16 + z / 4) :: (z % 4 * 64 + w) :: tail)
              | none => none
            | none => none
        | none => none
    | _, _ => none
  | _ => none

/-! ## The HTTP request/response model and the plugin -/

/-- The part of an inbound `*http.Request` the plugin reads.  `query` is
`req.URL.Query()` (Go's query parser never produces a name with an empty
value list); `body` is the full byte content behind `req.Body`;
`contentLength` is the declared `req.ContentLength` (`-1` for unknown). -/
structure Request where
  method : String
  path : String
  query : Values
  header : Values
  contentLength : Int
  body : List Nat

/-- `LambdaRequest` (src/main.go lines 48-58). -/
structure LambdaRequest where
  httpMethod : String
  path : String
  queryStringParameters : List (String × String)
  multiValueQueryStringParameters : List (String × List String)
  multiValueHeaders : List (String × List String)
  headers : List (String × String)
  body : List Nat
  isBase64Encoded : Bool

/-- `LambdaResponse` (src/main.go lines 60-68). -/
structure LambdaResponse where
  statusCode : Int
  statusDescription : String
  isBase64Encoded : Bool
  headers : List (String × String)
  multiValueHeaders : List (String × List String)
  body : List Nat

/-- `bodyToBase64` (src/main.go lines 149-171): when the declared content
length is not zero the whole body is pumped through a base64 encoder and
the flag is set; otherwise the pair `(false, "")` is returned. -/
def bodyToBase64 (req : Request) : Bool × List Nat :=
  if req.contentLength ≠ 0 then (true, base64Encode req.body) else (false, [])

/-- The `LambdaRequest` literal built in `ServeHTTP` (src/main.go lines
111-120). -/
def buildLambdaRequest (req : Request) : LambdaRequest :=
  let enc := bodyToBase64 req
  { httpMethod := req.method
    path := req.path
    queryStringParameters := valuesToMap req.query
    multiValueQueryStringParameters := valuesToMultiMap req.query
    multiValueHeaders := headersToMultiMap req.header
    headers := headersToMap req.header
    body := enc.2
    isBase64Encoded := enc.1 }

/-- The outcome of `a.client.Invoke`: a transport-level error (`err != nil`)
or a transport status code together with the payload.  The payload is the
result of `json.Unmarshal` into `LambdaResponse`, abstracted as
`Option LambdaResponse` (`none` = unmarshal error). -/
inductive InvokeResult where
  | transportError
  | ok (statusCode : Int) (payload : Option LambdaResponse)

/-- State of the `http.ResponseWriter`: headers set so far, the status
line once written, and the bytes written to the body. -/
structure RwState where
  headers : Values
  status : Option Int
  written : List Nat
  deriving Repr

/-- `rw.Header().Set(key, value)`: replace whatever values the key has
with the single given value. -/
def headerSet (h : Values) (key value : String) : Values :=
  if (h.map Prod.fst).contains key then
    h.map fun p => if p.1 = key then (p.1, [value]) else p
  else h ++ [(key, [value])]

/-- `rw.Header().Add(key, value)`: append the value to the key's values. -/
def headerAdd (h : Values) (key value : String) : Values :=
  if (h.map Prod.fst).contains key then
    h.map fun p => if p.1 = key then (p.1, p.2 ++ [value]) else p
  else h ++ [(key, [value])]

/-- `AwsLambdaPlugin` (src/main.go lines 40-46).  `next` is the wrapped
`http.Handler` as its effect on a response writer; `client` models the
`*lambda.Lambda` handle as a function of the function name and the
marshalled request. -/
structure AwsLambdaPlugin where
  next : RwState → Request → RwState
  functionArn : String
  name : String
  client : String → LambdaRequest → InvokeResult

/-- `invokeFunction` (src/main.go lines 173-198): `none` models a panic —
on a transport error, on a transport status other than 200, or on a
payload that does not unmarshal.  (`json.Marshal` of a `LambdaRequest`
cannot fail, so the marshal-panic branch is unreachable and the payload is
passed as the request itself.) -/
def invokeFunction (a : AwsLambdaPlugin) (request : LambdaRequest) : Option LambdaResponse :=
  match a.client a.functionArn request with
  | .transportError => none
  | .ok statusCode payload => if statusCode = 200 then payload else none

/-- Result of `ServeHTTP` on one request: `ok` with the final writer
state, or `aborted` (a panic) with the writer state at the moment of the
panic. -/
inductive ServeResult where
  | ok (final : RwState)
  | aborted (atPanic : RwState)

/-- `ServeHTTP` (src/main.go lines 109-147), as a function of the plugin,
the response-writer state and the request: build the `LambdaRequest`
(reading the body), invoke the function, base64-decode the returned body
when flagged, then set the singular headers, add the multi-value headers,
write the status line and write the body.  Every panic happens before the
first write to `rw`. -/
def serveHTTP (a : AwsLambdaPlugin) (rw : RwState) (req : Request) : ServeResult :=
  match invokeFunction a (buildLambdaRequest req) with
  | none => .aborted rw
  | some resp =>
    match (if resp.isBase64Encoded then base64Decode resp.body else some resp.body) with
    | none => .aborted rw
    | some body =>
      let rw1 := resp.headers.foldl
        (fun s p => { s with headers := headerSet s.headers p.1 p.2 }) rw
      let rw2 := resp.multiValueHeaders.foldl
        (fun s p => p.2.foldl (fun t v => { t with headers := headerAdd t.headers p.1 v }) s) rw1
      let rw3 := { rw2 with status := some resp.statusCode }
      .ok { rw3 with written := rw3.written ++ body }

/-- The two header loops of `ServeHTTP` only touch the `headers` field of
the writer: the `Set` loop preserves `status` and `written`. -/
theorem foldl_headerSet_fields (l : List (String × String)) (s : RwState) :
    (l.foldl (fun s p => { s with headers := headerSet s.headers p.1 p.2 }) s).status
        = s.status ∧
      (l.foldl (fun s p => { s with headers := headerSet s.headers p.1 p.2 }) s).written
        = s.written := by
  induction l generalizing s with
  | nil => exact ⟨rfl, rfl⟩
  | cons p t ih => exact ih _

/-- The inner `Add` loop preserves `status` and `written`. -/
theorem foldl_headerAdd_inner_fields (name : String) (vs : List String) (s : RwState) :
    (vs.foldl (fun t v => { t with headers := headerAdd t.headers name v }) s).status
        = s.status ∧
      (vs.foldl (fun t v => { t with headers := headerAdd t.headers name v }) s).written
        = s.written := by
  induction vs generalizing s with
  | nil => exact ⟨rfl, rfl⟩
  | cons v t ih => exact ih _

/-- The outer `Add` loop preserves `status` and `written`. -/
theorem foldl_headerAdd_fields (l : List (String × List String)) (s : RwState) :
    (l.foldl
          (fun s p => p.2.foldl (fun t v => { t with headers := headerAdd t.headers p.1 v }) s)
          s).status
        = s.status ∧
      (l.foldl
          (fun s p => p.2.foldl (fun t v => { t with headers := headerAdd t.headers p.1 v }) s)
          s).written
        = s.written := by
  induction l generalizing s with
  | nil => exact ⟨rfl, rfl⟩
  | cons p t ih =>
    refine ⟨?_, ?_⟩
    · rw [List.foldl_cons, (ih _).1, (foldl_headerAdd_inner_fields p.1 p.2 s).1]
    · rw [List.foldl_cons, (ih _).2, (foldl_headerAdd_inner_fields p.1 p.2 s).2]

/-! ## Helper lemmas -/

theorem coerceElems_map_vString (l : List String) :
    coerceElems (l.map GoValue.vString) = l := by
  induction l with
  | nil => rfl
  | cons s t ih => simp [coerceElems, valueToString, ih]

theorem valuesToStrings_strSlice (l : List String) :
    valuesToStrings (strSlice l) = some l := by
  simp [valuesToStrings, strSlice, supportedElemKind, coerceElems_map_vString]

theorem valueToString_strSlice (l : List String) :
    valueToString (strSlice l) =
      match l with
      | [s] => some s
      | _ => none := by
  show (if supportedElemKind .stringK then
      (match coerceElems (l.map GoValue.vString) with
        | [s] => some s
        | _ => none)
    else none) = _
  rw [coerceElems_map_vString]
  rfl

theorem valueToString_strSlice_single (s : String) :
    valueToString (strSlice [s]) = some s := by
  rw [valueToString_strSlice]

theorem valueToString_strSlice_not_single (l : List String) (h : l.length ≠ 1) :
    valueToString (strSlice l) = none := by
  rw [valueToString_strSlice]
  match l with
  | [] => rfl
  | [s] => exact absurd rfl h
  | a :: b :: t => rfl

/-- Every value of a kind accepted in sequence-element position is a
scalar, and its scalar coercion succeeds. -/
theorem scalar_coerces (e : GoValue) (h : supportedElemKind (kindOf e) = true) :
    ∃ s, valueToString e = some s := by
  cases e with
  | vInt iw n => exact ⟨_, rfl⟩
  | vUint uw n => exact ⟨_, rfl⟩
  | vFloat32 q => exact ⟨_, rfl⟩
  | vFloat64 q => exact ⟨_, rfl⟩
  | vString s => exact ⟨_, rfl⟩
  | vSlice ek elems => simp [kindOf, supportedElemKind] at h
  | vOther => simp [kindOf, supportedElemKind] at h

/-- On a list whose elements all coerce, the element loop skips nothing
and produces the elementwise canonical strings. -/
theorem coerceElems_forall2 (k : GoKind) (hsup : supportedElemKind k = true)
    (l : List GoValue) (hlk : ∀ e ∈ l, kindOf e = k) :
    List.Forall₂ (fun e s => valueToString e = some s) l (coerceElems l) := by
  induction l with
  | nil => exact List.Forall₂.nil
  | cons e t ih =>
    obtain ⟨s, hs⟩ := scalar_coerces e (by rw [hlk e (List.mem_cons_self e t)]; exact hsup)
    rw [show coerceElems (e :: t) = s :: coerceElems t by simp [coerceElems, hs]]
    exact List.Forall₂.cons hs (ih fun x hx => hlk x (List.mem_cons_of_mem e hx))

theorem coerceElems_length (k : GoKind) (hsup : supportedElemKind k = true)
    (l : List GoValue) (hlk : ∀ e ∈ l, kindOf e = k) :
    (coerceElems l).length = l.length :=
  ((coerceElems_forall2 k hsup l hlk).length_eq).symm

/-- Membership in `valuesToMap`, characterized on the input map. -/
theorem mem_valuesToMap (q : Values) (n v : String) :
    (n, v) ∈ valuesToMap q ↔ (n, [v]) ∈ q := by
  simp only [valuesToMap, List.mem_filterMap]
  constructor
  · rintro ⟨⟨n', vals⟩, hmem, hmatch⟩
    rw [valueToString_strSlice] at hmatch
    match vals, hmatch with
    | [s], hmatch =>
      obtain ⟨h1, h2⟩ := Prod.mk.injEq .. ▸ Option.some.injEq .. ▸ hmatch
      exact h1 ▸ h2 ▸ hmem
  · intro hmem
    exact ⟨(n, [v]), hmem, by rw [valueToString_strSlice]⟩

/-- Membership in `valuesToMultiMap`, characterized on the input map. -/
theorem mem_valuesToMultiMap (q : Values) (n : String) (l : List String) :
    (n, l) ∈ valuesToMultiMap q ↔ (n, l) ∈ q ∧ l.length ≠ 1 := by
  simp only [valuesToMultiMap, List.mem_filterMap]
  constructor
  · rintro ⟨⟨n', vals⟩, hmem, hmatch⟩
    rw [valuesToStrings_strSlice] at hmatch
    simp only at hmatch
    by_cases hlen : vals.length = 1
    · simp [hlen] at hmatch
    · simp [hlen] at hmatch
      obtain ⟨h1, h2⟩ := hmatch
      exact ⟨h1 ▸ h2 ▸ hmem, h2 ▸ hlen⟩
  · rintro ⟨hmem, hlen⟩
    refine ⟨(n, l), hmem, ?_⟩
    rw [valuesToStrings_strSlice]
    simp [hlen]

/-- Membership in `headersToMap`, characterized on the input header map. -/
theorem mem_headersToMap (h : Values) (n v : String) :
    (n, v) ∈ headersToMap h ↔ (n, [v]) ∈ h := by
  simp only [headersToMap, List.mem_filterMap]
  constructor
  · rintro ⟨⟨n', vals⟩, hmem, hmatch⟩
    match vals, hmatch with
    | [s], hmatch =>
      obtain ⟨h1, h2⟩ := Prod.mk.injEq .. ▸ Option.some.injEq .. ▸ hmatch
      exact h1 ▸ h2 ▸ hmem
  · intro hmem
    exact ⟨(n, [v]), hmem, rfl⟩

/-- Membership in `headersToMultiMap`, characterized on the input header
map. -/
theorem mem_headersToMultiMap (h : Values) (n : String) (l : List String) :
    (n, l) ∈ headersToMultiMap h ↔ (n, l) ∈ h ∧ 2 ≤ l.length := by
  simp only [headersToMultiMap, List.mem_filterMap]
  constructor
  · rintro ⟨⟨n', vals⟩, hmem, hmatch⟩
    by_cases hlen : vals.length < 2
    · simp [hlen] at hmatch
    · simp only [hlen, if_false] at hmatch
      obtain ⟨h1, h2⟩ := Prod.mk.injEq .. ▸ Option.some.injEq .. ▸ hmatch
      exact ⟨h1 ▸ h2 ▸ hmem, h2 ▸ Nat.le_of_not_lt hlen⟩
  · rintro ⟨hmem, hlen⟩
    exact ⟨(n, l), hmem, by simp [Nat.not_lt_of_le hlen]⟩

/-- In an association list with `Nodup` keys (a Go map), a key determines
its value. -/
theorem nodup_keys_val_eq {α : Type} {l : List (String × α)}
    (h : (l.map Prod.fst).Nodup) {n : String} {a b : α}
    (ha : (n, a) ∈ l) (hb : (n, b) ∈ l) : a = b := by
  induction l with
  | nil => cases ha
  | cons p t ih =>
    simp only [List.map_cons, List.nodup_cons] at h
    rcases List.mem_cons.1 ha with ha1 | ha1 <;> rcases List.mem_cons.1 hb with hb1 | hb1
    · rw [← ha1] at hb1; exact (Prod.mk.injEq .. ▸ hb1).2.symm ▸ rfl
    · exact absurd (List.mem_map_of_mem Prod.fst hb1)
        ((Prod.mk.injEq .. ▸ ha1).1 ▸ h.1)
    · exact absurd (List.mem_map_of_mem Prod.fst ha1)
        ((Prod.mk.injEq .. ▸ hb1).1 ▸ h.1)
    · exact ih h.2 ha1 hb1

/-! ## Claim theorems -/

/-- The four partition functions keep each name in at most one of the
singular/multi maps, and store only lists of length at least 2 in the
multi maps (for the query side, provided no name has an empty value
list). -/
theorem partition_maps_invariant (q h : Values)
    (hq : ∀ p ∈ q, p.2 ≠ ([] : List String))
    (hqk : (q.map Prod.fst).Nodup) (hhk : (h.map Prod.fst).Nodup) :
    (∀ n : String,
      ¬(n ∈ (valuesToMap q).map Prod.fst ∧ n ∈ (valuesToMultiMap q).map Prod.fst)) ∧
    (∀ n : String,
      ¬(n ∈ (headersToMap h).map Prod.fst ∧ n ∈ (headersToMultiMap h).map Prod.fst)) ∧
    (∀ p ∈ valuesToMultiMap q, 2 ≤ p.2.length) ∧
    (∀ p ∈ headersToMultiMap h, 2 ≤ p.2.length) := by
  refine ⟨?_, ?_, ?_, ?_⟩
  · rintro n ⟨h1, h2⟩
    obtain ⟨p1, hv, hf1⟩ := List.mem_map.1 h1
    obtain ⟨p2, hl, hf2⟩ := List.mem_map.1 h2
    have hv1 := (mem_valuesToMap q p1.1 p1.2).1 hv
    obtain ⟨hl1, hl2⟩ := (mem_valuesToMultiMap q p2.1 p2.2).1 hl
    rw [hf1] at hv1
    rw [hf2] at hl1
    have heq := nodup_keys_val_eq hqk hv1 hl1
    exact hl2 (heq ▸ rfl)
  · rintro n ⟨h1, h2⟩
    obtain ⟨p1, hv, hf1⟩ := List.mem_map.1 h1
    obtain ⟨p2, hl, hf2⟩ := List.mem_map.1 h2
    have hv1 := (mem_headersToMap h p1.1 p1.2).1 hv
    obtain ⟨hl1, hl2⟩ := (mem_headersToMultiMap h p2.1 p2.2).1 hl
    rw [hf1] at hv1
    rw [hf2] at hl1
    have heq := nodup_keys_val_eq hhk hv1 hl1
    rw [← heq] at hl2
    simp at hl2
  · rintro ⟨n, l⟩ hp
    obtain ⟨hmem, hne⟩ := (mem_valuesToMultiMap q n l).1 hp
    have hnil : l.length ≠ 0 := fun h0 => hq _ hmem (List.length_eq_zero.1 h0)
    show 2 ≤ l.length
    omega
  · rintro ⟨n, l⟩ hp
    exact ((mem_headersToMultiMap h n l).1 hp).2

/-- C1: for every inbound request (its parsed query never maps a name to
an empty value list, and Go maps have no duplicate keys), each
query-parameter name and each header name appears in at most one of the
singular/multi maps of the built envelope, and every sequence stored in
`multiValueQueryStringParameters` or `multiValueHeaders` has length at
least 2. -/
theorem c1_partition_invariant (req : Request)
    (hq : ∀ p ∈ req.query, p.2 ≠ ([] : List String))
    (hqk : (req.query.map Prod.fst).Nodup) (hhk : (req.header.map Prod.fst).Nodup) :
    (∀ n : String,
      ¬(n ∈ (buildLambdaRequest req).queryStringParameters.map Prod.fst ∧
        n ∈ (buildLambdaRequest req).multiValueQueryStringParameters.map Prod.fst)) ∧
    (∀ n : String,
      ¬(n ∈ (buildLambdaRequest req).headers.map Prod.fst ∧
        n ∈ (buildLambdaRequest req).multiValueHeaders.map Prod.fst)) ∧
    (∀ p ∈ (buildLambdaRequest req).multiValueQueryStringParameters, 2 ≤ p.2.length) ∧
    (∀ p ∈ (buildLambdaRequest req).multiValueHeaders, 2 ≤ p.2.length) := by
  have h := partition_maps_invariant req.query req.header hq hqk hhk
  simpa [buildLambdaRequest] using h

/-- Fixture: a request with one single-valued and one two-valued query
parameter, one single-valued and one two-valued header. -/
def reqPartFixture : Request :=
  { method := "GET", path := "/", query := [("a", ["1"]), ("c", ["3", "4"])],
    header := [("X", ["v"]), ("Y", ["s", "t"])], contentLength := 0, body := [] }

/-- Witness for C1 at a concrete query and header map. -/
theorem c1_partition_invariant_witness :
    (∀ p ∈ reqPartFixture.query, p.2 ≠ ([] : List String)) ∧
    (reqPartFixture.query.map Prod.fst).Nodup ∧
    (reqPartFixture.header.map Prod.fst).Nodup ∧
    ((∀ n : String,
      ¬(n ∈ (buildLambdaRequest reqPartFixture).queryStringParameters.map Prod.fst ∧
        n ∈ (buildLambdaRequest reqPartFixture).multiValueQueryStringParameters.map Prod.fst)) ∧
    (∀ n : String,
      ¬(n ∈ (buildLambdaRequest reqPartFixture).headers.map Prod.fst ∧
        n ∈ (buildLambdaRequest reqPartFixture).multiValueHeaders.map Prod.fst)) ∧
    (∀ p ∈ (buildLambdaRequest reqPartFixture).multiValueQueryStringParameters,
      2 ≤ p.2.length) ∧
    (∀ p ∈ (buildLambdaRequest reqPartFixture).multiValueHeaders, 2 ≤ p.2.length)) :=
  ⟨by decide, by decide, by decide,
    c1_partition_invariant reqPartFixture (by decide) (by decide) (by decide)⟩

/-- C2: scalar coercion produces canonical strings — `42` gives `"42"`,
the float `3.14159` gives `"3.1416"` (four fractional digits, rounded to
nearest), `"hello"` gives `"hello"`, and a value of an unsupported scalar
kind (`vOther`, modelling every non-sequence kind outside
{int, uint, float, string}) fails rather than producing a default. -/
theorem c2_scalar_coercion_roundtrip :
    valueToString (GoValue.vInt SW.w 42) = some "42" ∧
    valueToString (GoValue.vFloat64 (314159 / 100000)) = some "3.1416" ∧
    valueToString (GoValue.vString "hello") = some "hello" ∧
    valueToString GoValue.vOther = none := by
  refine ⟨by decide, ?_, by decide, by decide⟩
  show some (formatFloat4 (314159 / 100000)) = some "3.1416"
  have h : (⌊|(314159 / 100000 : ℚ)| * 10000 + 1 / 2⌋) = 31416 := by
    rw [Int.floor_eq_iff, abs_of_nonneg (by norm_num : (0 : ℚ) ≤ 314159 / 100000)]
    constructor <;> norm_num
  have hlt : ¬((314159 / 100000 : ℚ) < 0) := by norm_num
  rw [formatFloat4]
  simp only [h, hlt, if_false]
  decide

/-- C4: header partition is by cardinality only — a name with exactly one
value lands (with that value) only in `headersToMap`, a name with two or
more values lands (with its full value list) only in `headersToMultiMap`,
and a name with zero values is omitted from both. -/
theorem c4_header_cardinality_partition (h : Values) (hk : (h.map Prod.fst).Nodup)
    (name : String) (vals : List String) (hmem : (name, vals) ∈ h) :
    (vals.length = 1 →
      ((name, vals.headD "") ∈ headersToMap h ∧
        ∀ v, (name, v) ∈ headersToMap h → v = vals.headD "") ∧
      ∀ l, (name, l) ∉ headersToMultiMap h) ∧
    (2 ≤ vals.length →
      ((name, vals) ∈ headersToMultiMap h ∧
        ∀ l, (name, l) ∈ headersToMultiMap h → l = vals) ∧
      ∀ v, (name, v) ∉ headersToMap h) ∧
    (vals = [] →
      (∀ v, (name, v) ∉ headersToMap h) ∧ ∀ l, (name, l) ∉ headersToMultiMap h) := by
  refine ⟨?_, ?_, ?_⟩
  · intro h1
    obtain ⟨w, rfl⟩ := List.length_eq_one.1 h1
    refine ⟨⟨(mem_headersToMap h name w).2 hmem, ?_⟩, ?_⟩
    · intro v hv
      have := nodup_keys_val_eq hk ((mem_headersToMap h name v).1 hv) hmem
      simpa using this
    · intro l hl
      obtain ⟨hl1, hl2⟩ := (mem_headersToMultiMap h name l).1 hl
      have := nodup_keys_val_eq hk hl1 hmem
      subst this
      simp at hl2
  · intro h2
    refine ⟨⟨(mem_headersToMultiMap h name vals).2 ⟨hmem, h2⟩, ?_⟩, ?_⟩
    · intro l hl
      exact nodup_keys_val_eq hk ((mem_headersToMultiMap h name l).1 hl).1 hmem
    · intro v hv
      have := nodup_keys_val_eq hk ((mem_headersToMap h name v).1 hv) hmem
      subst this
      simp at h2
  · rintro rfl
    refine ⟨?_, ?_⟩
    · intro v hv
      have := nodup_keys_val_eq hk ((mem_headersToMap h name v).1 hv) hmem
      simp at this
    · intro l hl
      have := nodup_keys_val_eq hk ((mem_headersToMultiMap h name l).1 hl).1 hmem
      subst this
      have := ((mem_headersToMultiMap h name []).1 hl).2
      simp at this

/-- Witness for C4 at a concrete header map, at the name with two
values. -/
theorem c4_header_cardinality_partition_witness :
    (([("A", ["x"]), ("B", ["y", "z"]), ("C", ([] : List String))].map
        (Prod.fst (β := List String))).Nodup) ∧
    ("B", ["y", "z"]) ∈ [("A", ["x"]), ("B", ["y", "z"]), ("C", ([] : List String))] ∧
    ((2 ≤ (["y", "z"] : List String).length →
      (("B", ["y", "z"]) ∈
          headersToMultiMap [("A", ["x"]), ("B", ["y", "z"]), ("C", [])] ∧
        ∀ l, ("B", l) ∈ headersToMultiMap [("A", ["x"]), ("B", ["y", "z"]), ("C", [])] →
          l = ["y", "z"]) ∧
      ∀ v, ("B", v) ∉ headersToMap [("A", ["x"]), ("B", ["y", "z"]), ("C", [])])) :=
  ⟨by decide, by decide,
    (c4_header_cardinality_partition _ (by decide) "B" ["y", "z"] (by decide)).2.1⟩

/-- C9: a request with an empty (parsed) query string and no headers
yields an envelope whose four maps are all the empty map — the fields are
built unconditionally, never left null. -/
theorem c9_empty_request_maps (req : Request) (hq : req.query = []) (hh : req.header = []) :
    (buildLambdaRequest req).queryStringParameters = [] ∧
    (buildLambdaRequest req).multiValueQueryStringParameters = [] ∧
    (buildLambdaRequest req).headers = [] ∧
    (buildLambdaRequest req).multiValueHeaders = [] := by
  refine ⟨?_, ?_, ?_, ?_⟩ <;>
    simp [buildLambdaRequest, hq, hh, valuesToMap, valuesToMultiMap,
      headersToMap, headersToMultiMap]

/-- Witness for C9 at a concrete empty request. -/
theorem c9_empty_request_maps_witness :
    (Request.mk "GET" "/" [] [] 0 []).query = [] ∧
    (Request.mk "GET" "/" [] [] 0 []).header = [] ∧
    ((buildLambdaRequest (Request.mk "GET" "/" [] [] 0 [])).queryStringParameters = [] ∧
    (buildLambdaRequest (Request.mk "GET" "/" [] [] 0 [])).multiValueQueryStringParameters = [] ∧
    (buildLambdaRequest (Request.mk "GET" "/" [] [] 0 [])).headers = [] ∧
    (buildLambdaRequest (Request.mk "GET" "/" [] [] 0 [])).multiValueHeaders = []) :=
  ⟨rfl, rfl, c9_empty_request_maps _ rfl rfl⟩

/-- C10: `ServeHTTP` never invokes the `next` handler stored at
construction: the outcome on any request and writer state is unchanged
under replacing `next` by any other handler, so the response is produced
solely from the lambda invocation result. -/
theorem c10_next_handler_unused (n1 n2 : RwState → Request → RwState)
    (arn nm : String) (cl : String → LambdaRequest → InvokeResult)
    (rw : RwState) (req : Request) :
    serveHTTP (AwsLambdaPlugin.mk n1 arn nm cl) rw req
      = serveHTTP (AwsLambdaPlugin.mk n2 arn nm cl) rw req := rfl

/-- C3: a request with nonzero declared body length yields an envelope
carrying the base64 encoding of the full body with the flag set; a request
with declared length exactly zero yields an empty body with the flag
unset. -/
theorem c3_body_encoding (req : Request) :
    (req.contentLength ≠ 0 →
      (buildLambdaRequest req).isBase64Encoded = true ∧
      (buildLambdaRequest req).body = base64Encode req.body) ∧
    (req.contentLength = 0 →
      (buildLambdaRequest req).isBase64Encoded = false ∧
      (buildLambdaRequest req).body = []) := by
  constructor
  · intro hne
    exact ⟨by simp [buildLambdaRequest, bodyToBase64, hne],
      by simp [buildLambdaRequest, bodyToBase64, hne]⟩
  · intro he
    exact ⟨by simp [buildLambdaRequest, bodyToBase64, he],
      by simp [buildLambdaRequest, bodyToBase64, he]⟩

/-- Witness for C3 at a request with the three bytes `0, 1, 2`
(base64 `"AAEC"`, bytes `65, 65, 69, 67`). -/
theorem c3_body_encoding_witness :
    (Request.mk "POST" "/p" [] [] 3 [0, 1, 2]).contentLength ≠ 0 ∧
    (buildLambdaRequest (Request.mk "POST" "/p" [] [] 3 [0, 1, 2])).isBase64Encoded = true ∧
    (buildLambdaRequest (Request.mk "POST" "/p" [] [] 3 [0, 1, 2])).body = [65, 65, 69, 67] := by
  have h := (c3_body_encoding (Request.mk "POST" "/p" [] [] 3 [0, 1, 2])).1 (by decide)
  exact ⟨by decide, h.1, by rw [h.2]; decide⟩

/-- C5 as frozen is false: a one-element sequence of the supported scalar
`uint64(7)` does not coerce to `"7"` in the single-valued context — the
element-kind switch of the sequence path has no `Uint64` case — even
though the scalar itself coerces. -/
theorem c5_singleton_uint64_counterexample :
    valueToString (GoValue.vSlice (GoKind.uintK UW.w64) [GoValue.vUint UW.w64 7]) = none ∧
    valueToString (GoValue.vUint UW.w64 7) = some "7" := by
  exact ⟨rfl, rfl⟩

/-- C5 (amended): for a scalar whose kind the sequence dispatch accepts
(any supported scalar kind except `uint64`), a one-element sequence
coerces in the single-valued context to that element's canonical string;
a sequence of two or more such elements fails the single-valued coercion,
and a two-or-more-element query value list is placed in the multi-valued
map instead. -/
theorem c5_cardinality_collapse (s : GoValue) (hsup : supportedElemKind (kindOf s) = true)
    (l : List GoValue) (hl : 2 ≤ l.length) (hlk : ∀ e ∈ l, kindOf e = kindOf s)
    (q : Values) (n : String) (vals : List String) (h2 : 2 ≤ vals.length)
    (hq : (n, vals) ∈ q) :
    (∀ str, valueToString s = some str →
      valueToString (GoValue.vSlice (kindOf s) [s]) = some str) ∧
    valueToString (GoValue.vSlice (kindOf s) l) = none ∧
    valueToString (strSlice vals) = none ∧
    (n, vals) ∈ valuesToMultiMap q := by
  refine ⟨?_, ?_, ?_, ?_⟩
  · intro str hstr
    have hce : coerceElems [s] = [str] := by simp [coerceElems, hstr]
    simp [valueToString, hsup, hce]
  · have hlen := coerceElems_length (kindOf s) hsup l hlk
    rcases hc : coerceElems l with _ | ⟨a, _ | ⟨b, t⟩⟩
    · rw [hc] at hlen; simp at hlen; omega
    · rw [hc] at hlen; simp at hlen; omega
    · simp [valueToString, hsup, hc]
  · exact valueToString_strSlice_not_single vals (by omega)
  · exact (mem_valuesToMultiMap q n vals).2 ⟨hq, by omega⟩

/-- Witness for the amended C5 at string-kind values `["x"]` / `["x","y"]`
and the query map `{n: ["x","y"]}`. -/
theorem c5_cardinality_collapse_witness :
    supportedElemKind (kindOf (GoValue.vString "x")) = true ∧
    (∀ e ∈ [GoValue.vString "x", GoValue.vString "y"],
      kindOf e = kindOf (GoValue.vString "x")) ∧
    ((∀ str, valueToString (GoValue.vString "x") = some str →
      valueToString (GoValue.vSlice (kindOf (GoValue.vString "x")) [GoValue.vString "x"])
        = some str) ∧
    valueToString
        (GoValue.vSlice (kindOf (GoValue.vString "x"))
          [GoValue.vString "x", GoValue.vString "y"])
      = none ∧
    valueToString (strSlice ["x", "y"]) = none ∧
    ("n", ["x", "y"]) ∈ valuesToMultiMap [("n", ["x", "y"])]) :=
  ⟨rfl, by decide,
    c5_cardinality_collapse (GoValue.vString "x") rfl
      [GoValue.vString "x", GoValue.vString "y"] (by decide) (by decide)
      [("n", ["x", "y"])] "n" ["x", "y"] (by decide) (by decide)⟩

/-- C6 as frozen is false: the sequence `[]uint64{42}` has a supported
scalar element kind ("unsigned integer ... of any width"), but the
sequence coercion rejects it — `reflect.Uint64` is missing from the
element-kind case list — while the scalar path coerces `uint64(42)` to
`"42"`. -/
theorem c6_uint64_width_counterexample :
    valuesToStrings (GoValue.vSlice (GoKind.uintK UW.w64) [GoValue.vUint UW.w64 42]) = none ∧
    valueToString (GoValue.vUint UW.w64 42) = some "42" := by
  exact ⟨rfl, rfl⟩

/-- C6 (amended): sequence coercion succeeds exactly for the element
kinds in the dispatch list — signed integers of any width, unsigned
integers of width other than 64 bits, both float widths, and strings —
producing the ordered elementwise canonical strings; any sequence whose
element kind is outside that list is rejected with a failure report
(`none`), not an error escalation. -/
theorem c6_sequence_kind_dispatch (k : GoKind) (l : List GoValue)
    (hlk : ∀ e ∈ l, kindOf e = k) :
    (supportedElemKind k = true →
      ∃ strs, valuesToStrings (GoValue.vSlice k l) = some strs ∧
        List.Forall₂ (fun e str => valueToString e = some str) l strs) ∧
    (supportedElemKind k = false → valuesToStrings (GoValue.vSlice k l) = none) := by
  constructor
  · intro hsup
    exact ⟨coerceElems l, by simp [valuesToStrings, hsup],
      coerceElems_forall2 k hsup l hlk⟩
  · intro hsup
    simp [valuesToStrings, hsup]

/-- Witness for the amended C6 at a one-element string sequence. -/
theorem c6_sequence_kind_dispatch_witness :
    (∀ e ∈ [GoValue.vString "a"], kindOf e = GoKind.stringK) ∧
    supportedElemKind GoKind.stringK = true ∧
    (∃ strs, valuesToStrings (GoValue.vSlice GoKind.stringK [GoValue.vString "a"])
        = some strs ∧
      List.Forall₂ (fun e str => valueToString e = some str) [GoValue.vString "a"] strs) :=
  ⟨by decide, rfl, (c6_sequence_kind_dispatch GoKind.stringK [GoValue.vString "a"]
    (by decide)).1 rfl⟩

/-- Fixture: an empty inbound request. -/
def reqFixture : Request :=
  { method := "GET", path := "/", query := [], header := [], contentLength := 0, body := [] }

/-- Fixture: an untouched response writer. -/
def rwEmpty : RwState := { headers := [], status := none, written := [] }

/-- Fixture: a plugin whose backend returns transport status 500. -/
def pluginFail : AwsLambdaPlugin :=
  { next := fun s _ => s, functionArn := "arn", name := "p",
    client := fun _ _ => .ok 500 none }

/-- C7: a transport-level failure of the invocation call, or a transport
status other than 200, aborts the request with the response writer
untouched — no retry, no partial result, no bytes written. -/
theorem c7_transport_failure_aborts (a : AwsLambdaPlugin) (rw : RwState) (req : Request)
    (h : a.client a.functionArn (buildLambdaRequest req) = .transportError ∨
      ∃ c p, a.client a.functionArn (buildLambdaRequest req) = .ok c p ∧ c ≠ 200) :
    serveHTTP a rw req = .aborted rw := by
  have hinv : invokeFunction a (buildLambdaRequest req) = none := by
    rcases h with h | ⟨c, p, h, hc⟩
    · simp [invokeFunction, h]
    · simp [invokeFunction, h, hc]
  simp [serveHTTP, hinv]

/-- Witness for C7 at a backend answering with transport status 500. -/
theorem c7_transport_failure_aborts_witness :
    (pluginFail.client pluginFail.functionArn (buildLambdaRequest reqFixture)
        = .transportError ∨
      ∃ c p, pluginFail.client pluginFail.functionArn (buildLambdaRequest reqFixture)
          = .ok c p ∧ c ≠ 200) ∧
    serveHTTP pluginFail rwEmpty reqFixture = .aborted rwEmpty :=
  ⟨Or.inr ⟨500, none, rfl, by decide⟩,
    c7_transport_failure_aborts pluginFail rwEmpty reqFixture
      (Or.inr ⟨500, none, rfl, by decide⟩)⟩

/-- On a successful invocation whose body projection succeeds, `ServeHTTP`
completes and appends exactly the projected body to the written bytes. -/
theorem serveHTTP_ok_written (a : AwsLambdaPlugin) (rw : RwState) (req : Request)
    (resp : LambdaResponse) (body : List Nat)
    (hinv : invokeFunction a (buildLambdaRequest req) = some resp)
    (hbody : (if resp.isBase64Encoded then base64Decode resp.body else some resp.body)
      = some body) :
    ∃ final, serveHTTP a rw req = .ok final ∧ final.written = rw.written ++ body := by
  simp only [serveHTTP, hinv, hbody]
  refine ⟨_, rfl, ?_⟩
  simp only
  rw [(foldl_headerAdd_fields resp.multiValueHeaders _).2,
    (foldl_headerSet_fields resp.headers rw).2]

/-- C8: projecting a response with `isBase64Encoded = true` base64-decodes
the body before writing it (a decode failure aborts the request with
nothing written); with the flag false the body bytes are written as-is. -/
theorem c8_response_body_decoding (a : AwsLambdaPlugin) (rw : RwState) (req : Request)
    (resp : LambdaResponse)
    (h : a.client a.functionArn (buildLambdaRequest req) = .ok 200 (some resp)) :
    (resp.isBase64Encoded = true →
      (base64Decode resp.body = none → serveHTTP a rw req = .aborted rw) ∧
      (∀ bs, base64Decode resp.body = some bs →
        ∃ final, serveHTTP a rw req = .ok final ∧ final.written = rw.written ++ bs)) ∧
    (resp.isBase64Encoded = false →
      ∃ final, serveHTTP a rw req = .ok final ∧ final.written = rw.written ++ resp.body) := by
  have hinv : invokeFunction a (buildLambdaRequest req) = some resp := by
    simp [invokeFunction, h]
  constructor
  · intro hflag
    constructor
    · intro hdec
      simp [serveHTTP, hinv, hflag, hdec]
    · intro bs hdec
      exact serveHTTP_ok_written a rw req resp bs hinv (by rw [hflag, if_pos rfl]; exact hdec)
  · intro hflag
    exact serveHTTP_ok_written a rw req resp resp.body hinv (by rw [hflag]; rfl)

/-- Fixture: the response `{statusCode: 200, isBase64Encoded: true,
body: "QQ=="}` (bytes `81, 81, 61, 61`; decodes to the single byte 65). -/
def respFixture : LambdaResponse :=
  { statusCode := 200, statusDescription := "", isBase64Encoded := true,
    headers := [], multiValueHeaders := [], body := [81, 81, 61, 61] }

/-- Fixture: a plugin whose backend answers 200 with `respFixture`. -/
def pluginOk : AwsLambdaPlugin :=
  { next := fun s _ => s, functionArn := "arn", name := "p",
    client := fun _ _ => .ok 200 (some respFixture) }

/-- Witness for C8: the flagged body `"QQ=="` is decoded to the byte 65
before being written. -/
theorem c8_response_body_decoding_witness :
    pluginOk.client pluginOk.functionArn (buildLambdaRequest reqFixture)
      = .ok 200 (some respFixture) ∧
    respFixture.isBase64Encoded = true ∧
    base64Decode respFixture.body = some [65] ∧
    (∃ final, serveHTTP pluginOk rwEmpty reqFixture = .ok final ∧
      final.written = rwEmpty.written ++ [65]) :=
  ⟨rfl, rfl, by decide,
    ((c8_response_body_decoding pluginOk rwEmpty reqFixture respFixture rfl).1 rfl).2
      [65] (by decide)⟩

end AwsLambda
